import Mathlib

/-!
Verification of the spatial scoring and recommendation core of the
UHI Greenery Optimizer backend (src/main.py).

The embedding translates the four core functions — generate_grid,
simulate_layer_values, compute_heat_score and
recommend_planting_locations — into executable Lean definitions over ℚ.
Python/numpy floats are modelled by exact rationals; numpy 1-D
broadcasting and the pandas descending sort are modelled explicitly and
each modelling choice is recorded in the doc comment of the definition
it concerns.
-/

namespace Greenery

/-- Cell record produced by generate_grid: a shapely box
box(xs[xi], ys[yi], xs[xi+1], ys[yi+1]) together with the counter value
assigned to the dict key cell_id. -/
structure Cell where
  cell_id : ℕ
  minx : ℚ
  miny : ℚ
  maxx : ℚ
  maxy : ℚ
deriving DecidableEq, Repr

/-- Value of np.linspace(a, b, g + 1) at index i, as an exact rational:
a + (b - a) * i / g.  np.linspace divides [a, b] into g equal steps and
returns the endpoints of those steps. -/
def linspace (a b : ℚ) (g : ℕ) (i : ℕ) : ℚ :=
  a + (b - a) * i / g

/-- Embedding of generate_grid (src/main.py lines 41–57).  The Python
code runs a nested loop, outer over xi in range(grid_size), inner over
yi in range(grid_size), appending box(xs[xi], ys[yi], xs[xi+1], ys[yi+1])
with cell_id equal to a counter i that increments once per inner
iteration; at iteration (xi, yi) the counter equals xi * grid_size + yi.
The function performs no validation of the bounding box or of
grid_size. -/
def generate_grid (minx miny maxx maxy : ℚ) (grid_size : ℕ) : List Cell :=
  (List.range grid_size).flatMap (fun xi =>
    (List.range grid_size).map (fun yi =>
      { cell_id := xi * grid_size + yi
        minx := linspace minx maxx grid_size xi
        miny := linspace miny maxy grid_size yi
        maxx := linspace minx maxx grid_size (xi + 1)
        maxy := linspace miny maxy grid_size (yi + 1) }))

/-- Embedding of sklearn.preprocessing.minmax_scale on a 1-D array.
sklearn computes (x - min) / (max - min) elementwise; when the data
range max - min is zero, _handle_zeros_in_scale replaces the zero
divisor by 1, so a constant array is mapped to the constant array of
(x - min) / 1 = 0.  No NaN is ever produced. -/
def minmax_scale (xs : List ℚ) : List ℚ :=
  match xs with
  | [] => []
  | x :: rest =>
      let lo := rest.foldl min x
      let hi := rest.foldl max x
      if hi = lo then (x :: rest).map (fun _ => (0 : ℚ))
      else (x :: rest).map (fun v => (v - lo) / (hi - lo))

/-- Embedding of simulate_layer_values (src/main.py lines 60–66).
The draw rng.standard_normal(n) of np.random.default_rng(seed) is a
pure function of (seed, n); it is modelled by an arbitrary generator
function gen : seed → n → draws, universally quantified in every
theorem, since the PCG64/ziggurat bit stream itself is outside the
scope of the embedding.  The code then applies v * scale + bias
elementwise and min-max normalizes. -/
def simulate_layer_values (gen : ℤ → ℕ → List ℚ) (seed : ℤ) (n : ℕ)
    (scale bias : ℚ) : List ℚ :=
  minmax_scale ((gen seed n).map (fun v => v * scale + bias))

/-- Error raised by numpy when two 1-D operands cannot be broadcast
together ("operands could not be broadcast together").  The source
defines no error classes of its own. -/
inductive PyError where
  | valueError
deriving DecidableEq, Repr

/-- Scalar times numpy 1-D array: elementwise multiplication. -/
def npScale (c : ℚ) (v : List ℚ) : List ℚ := v.map (fun x => c * x)

/-- Addition of two numpy 1-D arrays with broadcasting: equal lengths
add elementwise; a length-1 operand broadcasts against the other; any
other length mismatch raises ValueError. -/
def npAdd (a b : List ℚ) : Except PyError (List ℚ) :=
  if a.length = b.length then .ok (List.zipWith (· + ·) a b)
  else if a.length = 1 then .ok (b.map (fun y => a.headD 0 + y))
  else if b.length = 1 then .ok (a.map (fun x => x + b.headD 0))
  else .error .valueError

/-- Result length of broadcasting two 1-D shapes, none when numpy
rejects the pair. -/
def bcast2 (m n : ℕ) : Option ℕ :=
  if m = n then some m else if m = 1 then some n
  else if n = 1 then some m else none

/-- The pre-normalization composite score of compute_heat_score
(src/main.py line 74): score = 0.6 * surface_temp +
0.25 * building_density + 0.15 * traffic, evaluated with numpy
broadcasting semantics. -/
def heat_score_pre (surface_temp building_density traffic : List ℚ) :
    Except PyError (List ℚ) :=
  match npAdd (npScale (0.6 : ℚ) surface_temp)
              (npScale (0.25 : ℚ) building_density) with
  | .error e => .error e
  | .ok s1 => npAdd s1 (npScale (0.15 : ℚ) traffic)

/-- Embedding of compute_heat_score (src/main.py lines 69–76): the
weighted sum followed by minmax_scale.  The code performs no explicit
length check; a mismatch surfaces only as a numpy broadcasting
ValueError inside the weighted sum. -/
def compute_heat_score (surface_temp building_density traffic : List ℚ) :
    Except PyError (List ℚ) :=
  match heat_score_pre surface_temp building_density traffic with
  | .error e => .error e
  | .ok score => .ok (minmax_scale score)

/-- Row of the working dataframe inside recommend_planting_locations
after the column assignments gdf['heat'], gdf['lon'], gdf['lat']:
one grid cell with its centroid coordinates and heat score. -/
structure Row where
  cell_id : ℕ
  lon : ℚ
  lat : ℚ
  heat : ℚ
deriving DecidableEq, Repr

/-- Longitude of the centroid of an axis-aligned rectangular cell. -/
def centroid_lon (c : Cell) : ℚ := (c.minx + c.maxx) / 2

/-- Latitude of the centroid of an axis-aligned rectangular cell. -/
def centroid_lat (c : Cell) : ℚ := (c.miny + c.maxy) / 2

/-- Column attachment of recommend_planting_locations (lines 81–84):
pairs each cell with its heat score and centroid coordinates.  pandas
requires len(heat_scores) = len(gdf) for the column assignment; the
theorems are stated for inputs of matching length. -/
def attach_columns (gdf : List Cell) (heat_scores : List ℚ) : List Row :=
  List.zipWith
    (fun c h =>
      { cell_id := c.cell_id
        lon := centroid_lon c
        lat := centroid_lat c
        heat := h })
    gdf heat_scores

/-- Comparison used by the sort on the heat column: heatLe a b means
a.heat ≤ b.heat. -/
def heatLe (a b : Row) : Prop := a.heat ≤ b.heat

instance : DecidableRel heatLe :=
  fun a b => inferInstanceAs (Decidable (a.heat ≤ b.heat))

instance : IsTotal Row heatLe := ⟨fun a b => le_total a.heat b.heat⟩

instance : IsTrans Row heatLe := ⟨fun _ _ _ h1 h2 => le_trans h1 h2⟩

/-- Embedding of gdf.sort_values('heat', ascending=False) (line 86).
pandas nargsort computes an ascending argsort of the column and, for
ascending=False, reverses the resulting indexer wholesale
(indexer[::-1]).  numpy argsort on the small arrays at issue sorts
equal keys stably (introsort falls back to insertion sort), so the
model is reverse-of-stable-ascending-sort; equal heats therefore come
out in reverse input order, not in input order. -/
def sort_candidates (rows : List Row) : List Row :=
  (List.insertionSort heatLe rows).reverse

/-- Recommendation dict appended to picks (line 101):
{cell_id, lon, lat, score}. -/
structure Pick where
  cell_id : ℕ
  lon : ℚ
  lat : ℚ
  score : ℚ
deriving DecidableEq, Repr

/-- Conversion of a candidate row to the pick dict appended at
line 101. -/
def mkPick (r : Row) : Pick :=
  { cell_id := r.cell_id, lon := r.lon, lat := r.lat, score := r.heat }

/-- Squared planar Euclidean distance in degrees between two
coordinate pairs. -/
def dist2 (alon alat blon blat : ℚ) : ℚ :=
  (alon - blon) ^ 2 + (alat - blat) ^ 2

/-- Proximity test of lines 96–99: the code compares
sqrt(d2) * 111000 < min_distance_m on floats.  Over the rationals this
comparison is equivalent to 0 < min_distance_m together with
d2 * 111000² < min_distance_m², since for min_distance_m ≤ 0 the
nonnegative left side can never be below it, and for positive
min_distance_m both sides are nonnegative so squaring preserves the
strict order. -/
def too_close_to (min_distance_m : ℚ) (r : Row) (chosen : Pick) : Bool :=
  decide (0 < min_distance_m ∧
    dist2 r.lon r.lat chosen.lon chosen.lat * 111000 ^ 2
      < min_distance_m ^ 2)

/-- Greedy selection loop of lines 88–101: iterate candidates in
order, stop as soon as k picks are held, skip a candidate that is too
close to any already-accepted pick, otherwise append it.  k is an
integer because Python places no sign restriction on it; the loop
guard len(picks) >= k is modelled as k ≤ picks.length over ℤ. -/
def greedy_picks (min_distance_m : ℚ) (k : ℤ) :
    List Row → List Pick → List Pick
  | [], picks => picks
  | r :: rest, picks =>
      if k ≤ (picks.length : ℤ) then picks
      else if picks.any (too_close_to min_distance_m r) then
        greedy_picks min_distance_m k rest picks
      else
        greedy_picks min_distance_m k rest (picks ++ [mkPick r])

/-- Embedding of recommend_planting_locations (src/main.py
lines 79–102): attach heat and centroid columns, sort by descending
heat, then run the greedy minimum-distance selection. -/
def recommend_planting_locations (gdf : List Cell) (heat_scores : List ℚ)
    (k : ℤ) (min_distance_m : ℚ) : List Pick :=
  greedy_picks min_distance_m k
    (sort_candidates (attach_columns gdf heat_scores)) []

/-- Caller-visible effect of one call to recommend_planting_locations.
Line 80 rebinds gdf to gdf.copy() before any column assignment, so
every subsequent mutation targets the copy; heat_scores is only ever
read (the column assignment copies its values into the frame).  The
triple returned is (picks, caller's grid after the call, caller's
heat_scores after the call). -/
def recommend_planting_locations_call (gdf : List Cell)
    (heat_scores : List ℚ) (k : ℤ) (min_distance_m : ℚ) :
    List Pick × List Cell × List ℚ :=
  let working := gdf
  (greedy_picks min_distance_m k
    (sort_candidates (attach_columns working heat_scores)) [],
   gdf, heat_scores)

/-- A list is non-constant when it holds two different values. -/
def nonConst (xs : List ℚ) : Prop := ∃ a ∈ xs, ∃ b ∈ xs, a ≠ b

/-- A list is constant when all its members are equal. -/
def isConst (xs : List ℚ) : Prop := ∀ a ∈ xs, ∀ b ∈ xs, a = b

theorem foldl_min_le_init (x : ℚ) (l : List ℚ) : l.foldl min x ≤ x := by
  induction l generalizing x with
  | nil => simp
  | cons a t ih =>
      calc t.foldl min (min x a) ≤ min x a := ih _
        _ ≤ x := min_le_left _ _

theorem foldl_min_le_mem (x : ℚ) (l : List ℚ) :
    ∀ v ∈ l, l.foldl min x ≤ v := by
  induction l generalizing x with
  | nil => simp
  | cons a t ih =>
      intro v hv
      rcases List.mem_cons.mp hv with rfl | hv
      · calc t.foldl min (min x v) ≤ min x v := foldl_min_le_init _ _
          _ ≤ v := min_le_right _ _
      · exact ih _ v hv

theorem foldl_min_le_all (x : ℚ) (l : List ℚ) :
    ∀ v ∈ x :: l, l.foldl min x ≤ v := by
  intro v hv
  rcases List.mem_cons.mp hv with rfl | hv
  · exact foldl_min_le_init _ _
  · exact foldl_min_le_mem _ _ v hv

theorem foldl_min_mem (x : ℚ) (l : List ℚ) :
    l.foldl min x ∈ x :: l := by
  induction l generalizing x with
  | nil => simp
  | cons a t ih =>
      show t.foldl min (min x a) ∈ x :: a :: t
      have h := ih (min x a)
      rcases List.mem_cons.mp h with h | h
      · rw [h]
        rcases min_choice x a with h' | h'
        · rw [h']; exact List.mem_cons_self _ _
        · rw [h']; exact List.mem_cons_of_mem _ (List.mem_cons_self _ _)
      · exact List.mem_cons_of_mem _ (List.mem_cons_of_mem _ h)

theorem le_foldl_max_init (x : ℚ) (l : List ℚ) : x ≤ l.foldl max x := by
  induction l generalizing x with
  | nil => simp
  | cons a t ih =>
      calc x ≤ max x a := le_max_left _ _
        _ ≤ t.foldl max (max x a) := ih _

theorem le_foldl_max_mem (x : ℚ) (l : List ℚ) :
    ∀ v ∈ l, v ≤ l.foldl max x := by
  induction l generalizing x with
  | nil => simp
  | cons a t ih =>
      intro v hv
      rcases List.mem_cons.mp hv with rfl | hv
      · calc v ≤ max x v := le_max_right _ _
          _ ≤ t.foldl max (max x v) := le_foldl_max_init _ _
      · exact ih _ v hv

theorem le_foldl_max_all (x : ℚ) (l : List ℚ) :
    ∀ v ∈ x :: l, v ≤ l.foldl max x := by
  intro v hv
  rcases List.mem_cons.mp hv with rfl | hv
  · exact le_foldl_max_init _ _
  · exact le_foldl_max_mem _ _ v hv

theorem foldl_max_mem (x : ℚ) (l : List ℚ) :
    l.foldl max x ∈ x :: l := by
  induction l generalizing x with
  | nil => simp
  | cons a t ih =>
      show t.foldl max (max x a) ∈ x :: a :: t
      have h := ih (max x a)
      rcases List.mem_cons.mp h with h | h
      · rw [h]
        rcases max_choice x a with h' | h'
        · rw [h']; exact List.mem_cons_self _ _
        · rw [h']; exact List.mem_cons_of_mem _ (List.mem_cons_self _ _)
      · exact List.mem_cons_of_mem _ (List.mem_cons_of_mem _ h)

theorem minmax_scale_bounds (xs : List ℚ) :
    ∀ v ∈ minmax_scale xs, 0 ≤ v ∧ v ≤ 1 := by
  match xs with
  | [] => simp [minmax_scale]
  | x :: rest =>
      intro v hv
      rw [minmax_scale] at hv
      by_cases hc : rest.foldl max x = rest.foldl min x
      · rw [if_pos hc] at hv
        rcases List.mem_map.mp hv with ⟨w, _, rfl⟩
        norm_num
      · rw [if_neg hc] at hv
        rcases List.mem_map.mp hv with ⟨w, hw, rfl⟩
        have hlo : rest.foldl min x ≤ w := foldl_min_le_all _ _ w hw
        have hhi : w ≤ rest.foldl max x := le_foldl_max_all _ _ w hw
        have hlt : rest.foldl min x < rest.foldl max x :=
          lt_of_le_of_ne (le_trans (foldl_min_le_init x rest)
            (le_foldl_max_init x rest)) (fun h => hc h.symm)
        constructor
        · exact div_nonneg (by linarith) (by linarith)
        · rw [div_le_one (by linarith)]
          linarith

theorem minmax_scale_extremes (xs : List ℚ) (h : nonConst xs) :
    0 ∈ minmax_scale xs ∧ 1 ∈ minmax_scale xs := by
  match xs with
  | [] => rcases h with ⟨a, ha, _⟩; simp at ha
  | x :: rest =>
      rcases h with ⟨a, ha, b, hb, hab⟩
      have hlo_le : ∀ v ∈ x :: rest, rest.foldl min x ≤ v :=
        foldl_min_le_all _ _
      have hhi_ge : ∀ v ∈ x :: rest, v ≤ rest.foldl max x :=
        le_foldl_max_all _ _
      have hlt : rest.foldl min x < rest.foldl max x := by
        rcases lt_or_gt_of_ne hab with h' | h'
        · exact lt_of_le_of_lt (hlo_le a ha) (lt_of_lt_of_le h' (hhi_ge b hb))
        · exact lt_of_le_of_lt (hlo_le b hb) (lt_of_lt_of_le h' (hhi_ge a ha))
      have hc : ¬ rest.foldl max x = rest.foldl min x := ne_of_gt hlt
      rw [minmax_scale, if_neg hc]
      constructor
      · exact List.mem_map.mpr ⟨rest.foldl min x, foldl_min_mem _ _, by
          rw [sub_self, zero_div]⟩
      · exact List.mem_map.mpr ⟨rest.foldl max x, foldl_max_mem _ _, by
          rw [div_self (by linarith)]⟩

theorem minmax_scale_const (xs : List ℚ) (h : isConst xs) :
    minmax_scale xs = List.replicate xs.length 0 := by
  match xs with
  | [] => rfl
  | x :: rest =>
      have hc : rest.foldl max x = rest.foldl min x :=
        h _ (foldl_max_mem _ _) _ (foldl_min_mem _ _)
      rw [minmax_scale, if_pos hc]
      exact List.map_const' _ _

theorem npAdd_ok_of_bcast {a b : List ℚ} {L : ℕ}
    (h : bcast2 a.length b.length = some L) :
    ∃ r, npAdd a b = Except.ok r ∧ r.length = L := by
  unfold bcast2 at h
  unfold npAdd
  by_cases h1 : a.length = b.length
  · rw [if_pos h1] at h ⊢
    simp only [Option.some.injEq] at h
    exact ⟨_, rfl, by simp [List.length_zipWith, h1]; omega⟩
  · rw [if_neg h1] at h ⊢
    by_cases h2 : a.length = 1
    · rw [if_pos h2] at h ⊢
      simp only [Option.some.injEq] at h
      exact ⟨_, rfl, by simp [h]⟩
    · rw [if_neg h2] at h ⊢
      by_cases h3 : b.length = 1
      · rw [if_pos h3] at h ⊢
        simp only [Option.some.injEq] at h
        exact ⟨_, rfl, by simp [h]⟩
      · rw [if_neg h3] at h
        exact absurd h (by simp)

theorem npAdd_err_of_bcast {a b : List ℚ}
    (h : bcast2 a.length b.length = none) :
    npAdd a b = Except.error PyError.valueError := by
  unfold bcast2 at h
  unfold npAdd
  by_cases h1 : a.length = b.length
  · rw [if_pos h1] at h; exact absurd h (by simp)
  · rw [if_neg h1] at h ⊢
    by_cases h2 : a.length = 1
    · rw [if_pos h2] at h; exact absurd h (by simp)
    · rw [if_neg h2] at h ⊢
      by_cases h3 : b.length = 1
      · rw [if_pos h3] at h; exact absurd h (by simp)
      · rw [if_neg h3]

/-- Broadcast shape of the full weighted sum of heat_score_pre. -/
def bcast3 (m n p : ℕ) : Option ℕ :=
  (bcast2 m n).bind (fun L => bcast2 L p)

theorem heat_score_pre_ok_of_bcast {s b t : List ℚ} {L : ℕ}
    (h : bcast3 s.length b.length t.length = some L) :
    ∃ pre, heat_score_pre s b t = Except.ok pre ∧ pre.length = L := by
  unfold bcast3 at h
  rcases h12 : bcast2 s.length b.length with _ | L1
  · rw [h12] at h; simp at h
  · rw [h12] at h
    simp only [Option.some_bind] at h
    have h12' : bcast2 (npScale 0.6 s).length (npScale 0.25 b).length
        = some L1 := by simpa [npScale] using h12
    rcases npAdd_ok_of_bcast h12' with ⟨r1, hr1, hl1⟩
    have h23 : bcast2 r1.length (npScale 0.15 t).length = some L := by
      simpa [npScale, hl1] using h
    rcases npAdd_ok_of_bcast h23 with ⟨r2, hr2, hl2⟩
    refine ⟨r2, ?_, hl2⟩
    unfold heat_score_pre
    rw [hr1]
    exact hr2

theorem heat_score_pre_err_of_bcast {s b t : List ℚ}
    (h : bcast3 s.length b.length t.length = none) :
    heat_score_pre s b t = Except.error PyError.valueError := by
  unfold bcast3 at h
  rcases h12 : bcast2 s.length b.length with _ | L1
  · have h12' : bcast2 (npScale 0.6 s).length (npScale 0.25 b).length
        = none := by simpa [npScale] using h12
    unfold heat_score_pre
    rw [npAdd_err_of_bcast h12']
  · rw [h12] at h
    simp only [Option.some_bind] at h
    have h12' : bcast2 (npScale 0.6 s).length (npScale 0.25 b).length
        = some L1 := by simpa [npScale] using h12
    rcases npAdd_ok_of_bcast h12' with ⟨r1, hr1, hl1⟩
    have h23 : bcast2 r1.length (npScale 0.15 t).length = none := by
      simpa [npScale, hl1] using h
    unfold heat_score_pre
    rw [hr1]
    exact npAdd_err_of_bcast h23

theorem heat_score_pre_eq_of_length {s b t : List ℚ}
    (hs : s.length = b.length) (ht : b.length = t.length) :
    heat_score_pre s b t = Except.ok
      (List.zipWith (· + ·)
        (List.zipWith (· + ·) (npScale 0.6 s) (npScale 0.25 b))
        (npScale 0.15 t)) := by
  have e1 : npAdd (npScale 0.6 s) (npScale 0.25 b) = Except.ok
      (List.zipWith (· + ·) (npScale 0.6 s) (npScale 0.25 b)) := by
    unfold npAdd
    rw [if_pos (by simp [npScale, hs])]
  have e2 : npAdd (List.zipWith (· + ·) (npScale 0.6 s) (npScale 0.25 b))
      (npScale 0.15 t) = Except.ok
      (List.zipWith (· + ·)
        (List.zipWith (· + ·) (npScale 0.6 s) (npScale 0.25 b))
        (npScale 0.15 t)) := by
    unfold npAdd
    rw [if_pos (by simp [npScale, List.length_zipWith, hs, ht])]
  unfold heat_score_pre
  rw [e1]
  exact e2

theorem minmax_scale_length (xs : List ℚ) :
    (minmax_scale xs).length = xs.length := by
  match xs with
  | [] => rfl
  | x :: rest =>
      rw [minmax_scale]
      split <;> simp

/-- C4: for three equal-length input arrays, the score produced by
compute_heat_score before its final normalization equals
0.6 * surface_temp + 0.25 * building_density + 0.15 * traffic
pointwise at every cell, and the three weights sum to 1. -/
theorem fusion_pre_norm_pointwise (s b t : List ℚ)
    (hs : s.length = b.length) (ht : b.length = t.length) :
    ∃ pre, heat_score_pre s b t = Except.ok pre ∧ pre.length = s.length ∧
      (∀ (i : ℕ) (hp : i < pre.length) (h1 : i < s.length)
        (h2 : i < b.length) (h3 : i < t.length),
        pre.get ⟨i, hp⟩ = 0.6 * s.get ⟨i, h1⟩ + 0.25 * b.get ⟨i, h2⟩
          + 0.15 * t.get ⟨i, h3⟩) ∧
      (0.6 + 0.25 + 0.15 : ℚ) = 1 := by
  refine ⟨_, heat_score_pre_eq_of_length hs ht, ?_, ?_, by norm_num⟩
  · simp [npScale, List.length_zipWith, hs, ht]
  · intro i hp h1 h2 h3
    simp only [List.get_eq_getElem, List.getElem_zipWith, List.getElem_map,
      npScale]

/-- Witness for C4 at surface [1,2], building [3,4], traffic [5,6]. -/
theorem fusion_pre_norm_pointwise_witness :
    (([1, 2] : List ℚ).length = ([3, 4] : List ℚ).length) ∧
    (([3, 4] : List ℚ).length = ([5, 6] : List ℚ).length) ∧
    (∃ pre, heat_score_pre [1, 2] [3, 4] [5, 6] = Except.ok pre ∧
      pre.length = ([1, 2] : List ℚ).length ∧
      (∀ (i : ℕ) (hp : i < pre.length) (h1 : i < ([1, 2] : List ℚ).length)
        (h2 : i < ([3, 4] : List ℚ).length)
        (h3 : i < ([5, 6] : List ℚ).length),
        pre.get ⟨i, hp⟩ = 0.6 * ([1, 2] : List ℚ).get ⟨i, h1⟩
          + 0.25 * ([3, 4] : List ℚ).get ⟨i, h2⟩
          + 0.15 * ([5, 6] : List ℚ).get ⟨i, h3⟩) ∧
      (0.6 + 0.25 + 0.15 : ℚ) = 1) :=
  ⟨rfl, rfl, fusion_pre_norm_pointwise [1, 2] [3, 4] [5, 6] rfl rfl⟩

/-- C9 counterexample: the claim says compute_heat_score fails whenever
the three lengths are not all equal, but with lengths (2, 1, 2) it
succeeds: the length-1 array broadcasts, and the call returns a normal
result. -/
theorem fusion_mismatch_counterexample :
    compute_heat_score [1, 2] [3] [4, 5] = Except.ok [0, 1] := by
  simp [compute_heat_score, heat_score_pre, npAdd, npScale, minmax_scale]
  norm_num

/-- C9 (amended): with three equal-length arrays compute_heat_score
succeeds and returns an array of the common length; when the three
lengths are not numpy-broadcast-compatible it fails, and the failure is
the generic numpy ValueError, not a dedicated dimension-mismatch error
(no such class exists in the source). -/
theorem fusion_dimension_check (s b t : List ℚ) :
    (s.length = b.length → b.length = t.length →
      ∃ out, compute_heat_score s b t = Except.ok out ∧
        out.length = s.length) ∧
    (bcast3 s.length b.length t.length = none →
      compute_heat_score s b t = Except.error PyError.valueError) := by
  constructor
  · intro hs ht
    refine ⟨minmax_scale (List.zipWith (· + ·)
      (List.zipWith (· + ·) (npScale 0.6 s) (npScale 0.25 b))
      (npScale 0.15 t)), ?_, ?_⟩
    · unfold compute_heat_score
      rw [heat_score_pre_eq_of_length hs ht]
    · rw [minmax_scale_length]
      simp [npScale, List.length_zipWith, hs, ht]
  · intro h
    unfold compute_heat_score
    rw [heat_score_pre_err_of_bcast h]

/-- Witness for C9 (amended): equal lengths (2,2,2) succeed, and the
incompatible lengths (2,3,2) raise ValueError. -/
theorem fusion_dimension_check_witness :
    (∃ out, compute_heat_score [1, 2] [3, 4] [5, 6] = Except.ok out ∧
      out.length = ([1, 2] : List ℚ).length) ∧
    compute_heat_score [1, 2] [3, 4, 5] [6, 7]
      = Except.error PyError.valueError :=
  ⟨(fusion_dimension_check [1, 2] [3, 4] [5, 6]).1 rfl rfl,
   (fusion_dimension_check [1, 2] [3, 4, 5] [6, 7]).2 (by decide)⟩

/-- C5: every output of simulate_layer_values and compute_heat_score
lies in [0, 1]; when the pre-normalization values are non-constant the
output attains both 0 and 1; when they are all equal, normalization
does not divide by zero and the result is the all-zero constant
array. -/
theorem normalization_bounds_extremes
    (gen : ℤ → ℕ → List ℚ) (seed : ℤ) (n : ℕ) (scale bias : ℚ)
    (s b t pre : List ℚ)
    (hpre : heat_score_pre s b t = Except.ok pre) :
    (∀ v ∈ simulate_layer_values gen seed n scale bias, 0 ≤ v ∧ v ≤ 1) ∧
    compute_heat_score s b t = Except.ok (minmax_scale pre) ∧
    (∀ v ∈ minmax_scale pre, 0 ≤ v ∧ v ≤ 1) ∧
    (nonConst ((gen seed n).map (fun v => v * scale + bias)) →
      0 ∈ simulate_layer_values gen seed n scale bias ∧
      1 ∈ simulate_layer_values gen seed n scale bias) ∧
    (nonConst pre → 0 ∈ minmax_scale pre ∧ 1 ∈ minmax_scale pre) ∧
    (isConst ((gen seed n).map (fun v => v * scale + bias)) →
      simulate_layer_values gen seed n scale bias
        = List.replicate (gen seed n).length 0) ∧
    (isConst pre → minmax_scale pre = List.replicate pre.length 0) := by
  refine ⟨?_, ?_, minmax_scale_bounds pre, ?_, minmax_scale_extremes pre,
    ?_, minmax_scale_const pre⟩
  · exact minmax_scale_bounds _
  · unfold compute_heat_score
    rw [hpre]
  · exact minmax_scale_extremes _
  · intro h
    unfold simulate_layer_values
    rw [minmax_scale_const _ h]
    simp

/-- Witness for C5 at a concrete fusion of [0,1] arrays and a
two-element simulated layer. -/
theorem normalization_bounds_extremes_witness :
    heat_score_pre [0, 1] [0, 1] [0, 1] = Except.ok [0, 1] ∧
    ((∀ v ∈ simulate_layer_values (fun _ _ => [0, 1]) 0 2 1 0,
        0 ≤ v ∧ v ≤ 1) ∧
      compute_heat_score [0, 1] [0, 1] [0, 1]
        = Except.ok (minmax_scale [0, 1]) ∧
      (∀ v ∈ minmax_scale [0, 1], 0 ≤ v ∧ v ≤ 1) ∧
      (nonConst (([0, 1] : List ℚ).map (fun v => v * 1 + 0)) →
        0 ∈ simulate_layer_values (fun _ _ => [0, 1]) 0 2 1 0 ∧
        1 ∈ simulate_layer_values (fun _ _ => [0, 1]) 0 2 1 0) ∧
      (nonConst [0, 1] → 0 ∈ minmax_scale [0, 1] ∧ 1 ∈ minmax_scale [0, 1]) ∧
      (isConst (([0, 1] : List ℚ).map (fun v => v * 1 + 0)) →
        simulate_layer_values (fun _ _ => [0, 1]) 0 2 1 0
          = List.replicate ([0, 1] : List ℚ).length 0) ∧
      (isConst [0, 1] →
        minmax_scale [0, 1] = List.replicate ([0, 1] : List ℚ).length 0)) :=
  ⟨by simp [heat_score_pre, npAdd, npScale]; norm_num,
   normalization_bounds_extremes (fun _ _ => [0, 1]) 0 2 1 0
     [0, 1] [0, 1] [0, 1] [0, 1]
     (by simp [heat_score_pre, npAdd, npScale]; norm_num)⟩

/-- The cell emitted at outer index xi, inner index yi of the nested
loop of generate_grid. -/
def grid_cell (minx miny maxx maxy : ℚ) (g : ℕ) (xi yi : ℕ) : Cell :=
  { cell_id := xi * g + yi
    minx := linspace minx maxx g xi
    miny := linspace miny maxy g yi
    maxx := linspace minx maxx g (xi + 1)
    maxy := linspace miny maxy g (yi + 1) }

theorem generate_grid_eq (minx miny maxx maxy : ℚ) (g : ℕ) :
    generate_grid minx miny maxx maxy g
      = (List.range g).flatMap (fun xi =>
          (List.range g).map (grid_cell minx miny maxx maxy g xi)) := rfl

/-- Area of a rectangular cell. -/
def cell_area (c : Cell) : ℚ := (c.maxx - c.minx) * (c.maxy - c.miny)

/-- Interior membership in a rectangular cell. -/
def in_open_cell (c : Cell) (x y : ℚ) : Prop :=
  c.minx < x ∧ x < c.maxx ∧ c.miny < y ∧ y < c.maxy

/-- Closed membership in a rectangular cell. -/
def in_closed_cell (c : Cell) (x y : ℚ) : Prop :=
  c.minx ≤ x ∧ x ≤ c.maxx ∧ c.miny ≤ y ∧ y ≤ c.maxy

theorem range_flatMap_length {α : Type} (f : ℕ → List α) (m n : ℕ)
    (hf : ∀ a, (f a).length = m) :
    ((List.range n).flatMap f).length = n * m := by
  induction n with
  | zero => simp
  | succ p ih =>
      rw [List.range_succ, List.flatMap_append]
      simp [ih, hf, Nat.succ_mul]

theorem range_flatMap_getElem {α : Type} (f : ℕ → List α) (m n : ℕ)
    (hf : ∀ a, (f a).length = m) (i j : ℕ) (hi : i < n) (hj : j < m) :
    ((List.range n).flatMap f)[i * m + j]? = (f i)[j]? := by
  induction n with
  | zero => omega
  | succ p ih =>
      rw [List.range_succ, List.flatMap_append]
      rw [List.getElem?_append]
      rcases Nat.lt_or_ge i p with h | h
      · rw [if_pos (by
          rw [range_flatMap_length f m p hf]
          have hm : i * m + m ≤ p * m := by
            have h' := Nat.mul_le_mul_right m (Nat.succ_le_of_lt h)
            rw [Nat.succ_mul] at h'
            exact h'
          omega)]
        exact ih h
      · have hip : i = p := by omega
        rw [if_neg (by
          rw [range_flatMap_length f m p hf, hip]
          omega), range_flatMap_length f m p hf, hip]
        have hij : p * m + j - p * m = j := by omega
        rw [hij]
        simp

theorem linspace_zero (a b : ℚ) (g : ℕ) : linspace a b g 0 = a := by
  simp [linspace]

theorem linspace_last (a b : ℚ) (g : ℕ) (hg : g ≠ 0) :
    linspace a b g g = b := by
  have hg' : (g : ℚ) ≠ 0 := by exact_mod_cast hg
  field_simp [linspace]

theorem linspace_le (a b : ℚ) (g : ℕ) (h : a < b) (hg : 0 < g)
    {i j : ℕ} (hij : i ≤ j) : linspace a b g i ≤ linspace a b g j := by
  unfold linspace
  gcongr
  all_goals first
    | linarith
    | exact_mod_cast hij

theorem linspace_lt (a b : ℚ) (g : ℕ) (h : a < b) (hg : 0 < g)
    {i j : ℕ} (hij : i < j) : linspace a b g i < linspace a b g j := by
  unfold linspace
  gcongr
  all_goals first
    | linarith
    | exact_mod_cast hij
    | (exact_mod_cast hg)

theorem linspace_step (a b : ℚ) (g : ℕ) (hg : g ≠ 0) (i : ℕ) :
    linspace a b g (i + 1) - linspace a b g i = (b - a) / g := by
  have hg' : (g : ℚ) ≠ 0 := by exact_mod_cast hg
  unfold linspace
  field_simp
  push_cast
  ring

theorem linspace_cover (a b : ℚ) (g : ℕ) (hab : a < b) (hg : 1 ≤ g)
    {x : ℚ} (h1 : a ≤ x) (h2 : x ≤ b) :
    ∃ i, i < g ∧ linspace a b g i ≤ x ∧ x ≤ linspace a b g (i + 1) := by
  have hg0 : (0 : ℚ) < g := by exact_mod_cast hg
  have hba : (0 : ℚ) < b - a := by linarith
  set t : ℚ := (x - a) * g / (b - a) with htdef
  have ht0 : 0 ≤ t := by
    rw [htdef]
    apply div_nonneg
    · apply mul_nonneg <;> linarith
    · linarith
  have hfns : (0 : ℤ) ≤ ⌊t⌋ := Int.floor_nonneg.mpr ht0
  have hcast : ((Int.toNat ⌊t⌋ : ℕ) : ℚ) = ((⌊t⌋ : ℤ) : ℚ) := by
    exact_mod_cast Int.toNat_of_nonneg hfns
  have hteq : (b - a) * t = (x - a) * g := by
    rw [htdef]
    field_simp
  refine ⟨min (Int.toNat ⌊t⌋) (g - 1), ?_, ?_, ?_⟩
  · have hlt : g - 1 < g := by omega
    exact lt_of_le_of_lt (min_le_right _ _) hlt
  · have hi_le_t : ((min (Int.toNat ⌊t⌋) (g - 1) : ℕ) : ℚ) ≤ t := by
      calc ((min (Int.toNat ⌊t⌋) (g - 1) : ℕ) : ℚ)
          ≤ ((Int.toNat ⌊t⌋ : ℕ) : ℚ) := by exact_mod_cast min_le_left _ _
        _ = ((⌊t⌋ : ℤ) : ℚ) := hcast
        _ ≤ t := Int.floor_le t
    have hmul : (b - a) * ((min (Int.toNat ⌊t⌋) (g - 1) : ℕ) : ℚ)
        ≤ (b - a) * t :=
      mul_le_mul_of_nonneg_left hi_le_t (le_of_lt hba)
    have key : (b - a) * ((min (Int.toNat ⌊t⌋) (g - 1) : ℕ) : ℚ) / g
        ≤ x - a := by
      rw [div_le_iff hg0]
      nlinarith
    unfold linspace
    linarith
  · rcases le_total (Int.toNat ⌊t⌋) (g - 1) with hle | hge
    · rw [min_eq_left hle]
      have htlt : t < ((Int.toNat ⌊t⌋ : ℕ) : ℚ) + 1 := by
        rw [hcast]
        exact Int.lt_floor_add_one t
      have hmul : (b - a) * t
          ≤ (b - a) * (((Int.toNat ⌊t⌋ : ℕ) : ℚ) + 1) :=
        mul_le_mul_of_nonneg_left (le_of_lt htlt) (le_of_lt hba)
      have key : x - a
          ≤ (b - a) * (((Int.toNat ⌊t⌋ : ℕ) : ℚ) + 1) / g := by
        rw [le_div_iff hg0]
        nlinarith
      unfold linspace
      push_cast
      linarith
    · rw [min_eq_right hge]
      have hsucc : (g - 1) + 1 = g := by omega
      rw [hsucc, linspace_last a b g (by omega)]
      exact h2

theorem mem_generate_grid (minx miny maxx maxy : ℚ) (g : ℕ) (c : Cell) :
    c ∈ generate_grid minx miny maxx maxy g ↔
      ∃ xi, xi < g ∧ ∃ yi, yi < g ∧
        c = grid_cell minx miny maxx maxy g xi yi := by
  rw [generate_grid_eq]
  simp only [List.mem_flatMap, List.mem_map, List.mem_range]
  constructor
  · rintro ⟨xi, hxi, yi, hyi, rfl⟩
    exact ⟨xi, hxi, yi, hyi, rfl⟩
  · rintro ⟨xi, hxi, yi, hyi, rfl⟩
    exact ⟨xi, hxi, yi, hyi, rfl⟩

theorem open_intervals_disjoint (a b : ℚ) (g : ℕ) (hab : a < b)
    (hg0 : 0 < g) {i j : ℕ} (hij : i ≠ j) (x : ℚ) :
    ¬(linspace a b g i < x ∧ x < linspace a b g (i + 1) ∧
      linspace a b g j < x ∧ x < linspace a b g (j + 1)) := by
  rintro ⟨h1, h2, h3, h4⟩
  rcases Nat.lt_or_ge i j with h | h
  · have hle : linspace a b g (i + 1) ≤ linspace a b g j :=
      linspace_le a b g hab hg0 (by omega)
    linarith
  · have hj : j < i := by omega
    have hle : linspace a b g (j + 1) ≤ linspace a b g i :=
      linspace_le a b g hab hg0 (by omega)
    linarith

/-- C2: for a proper bounding box and grid_size g ≥ 1, generate_grid
returns exactly g*g cells; the cell at list position xi*g+yi is the
cell of x-index xi (outer loop) and y-index yi (inner loop), carrying
identifier xi*g+yi and the linear-interpolation bounds; every cell
lies inside the bounding box and is non-degenerate; cells at distinct
loop indices have disjoint interiors; the areas sum to the
bounding-box area; and every point of the box lies in some cell
(no gaps, no overlaps). -/
theorem grid_tiling (minx miny maxx maxy : ℚ) (g : ℕ)
    (hx : minx < maxx) (hy : miny < maxy) (hg : 1 ≤ g) :
    (generate_grid minx miny maxx maxy g).length = g * g ∧
    (∀ xi yi, xi < g → yi < g →
      (generate_grid minx miny maxx maxy g)[xi * g + yi]?
        = some (grid_cell minx miny maxx maxy g xi yi)) ∧
    (∀ c ∈ generate_grid minx miny maxx maxy g,
      minx ≤ c.minx ∧ c.minx < c.maxx ∧ c.maxx ≤ maxx ∧
      miny ≤ c.miny ∧ c.miny < c.maxy ∧ c.maxy ≤ maxy) ∧
    (∀ xi yi xi' yi', xi < g → yi < g → xi' < g → yi' < g →
      ¬(xi = xi' ∧ yi = yi') →
      ∀ x y,
        ¬(in_open_cell (grid_cell minx miny maxx maxy g xi yi) x y ∧
          in_open_cell (grid_cell minx miny maxx maxy g xi' yi') x y)) ∧
    ((generate_grid minx miny maxx maxy g).map cell_area).sum
      = (maxx - minx) * (maxy - miny) ∧
    (∀ x y, minx ≤ x → x ≤ maxx → miny ≤ y → y ≤ maxy →
      ∃ c ∈ generate_grid minx miny maxx maxy g, in_closed_cell c x y) := by
  have hg0 : 0 < g := hg
  have hgne : g ≠ 0 := by omega
  have hgq : (g : ℚ) ≠ 0 := by exact_mod_cast hgne
  have hrowlen : ∀ xi : ℕ,
      ((List.range g).map (grid_cell minx miny maxx maxy g xi)).length
        = g := by
    intro xi
    simp
  refine ⟨?_, ?_, ?_, ?_, ?_, ?_⟩
  · rw [generate_grid_eq]
    exact range_flatMap_length _ g g hrowlen
  · intro xi yi hxi hyi
    rw [generate_grid_eq,
      range_flatMap_getElem _ g g hrowlen xi yi hxi hyi,
      List.getElem?_map, List.getElem?_range hyi]
    rfl
  · intro c hc
    rw [mem_generate_grid] at hc
    obtain ⟨xi, hxi, yi, hyi, rfl⟩ := hc
    have e1 : minx ≤ linspace minx maxx g xi := by
      have h := linspace_le minx maxx g hx hg0 (Nat.zero_le xi)
      rwa [linspace_zero] at h
    have e2 : linspace minx maxx g xi < linspace minx maxx g (xi + 1) :=
      linspace_lt minx maxx g hx hg0 (Nat.lt_succ_self xi)
    have e3 : linspace minx maxx g (xi + 1) ≤ maxx := by
      have h := linspace_le minx maxx g hx hg0
        (show xi + 1 ≤ g from hxi)
      rwa [linspace_last minx maxx g hgne] at h
    have e4 : miny ≤ linspace miny maxy g yi := by
      have h := linspace_le miny maxy g hy hg0 (Nat.zero_le yi)
      rwa [linspace_zero] at h
    have e5 : linspace miny maxy g yi < linspace miny maxy g (yi + 1) :=
      linspace_lt miny maxy g hy hg0 (Nat.lt_succ_self yi)
    have e6 : linspace miny maxy g (yi + 1) ≤ maxy := by
      have h := linspace_le miny maxy g hy hg0
        (show yi + 1 ≤ g from hyi)
      rwa [linspace_last miny maxy g hgne] at h
    exact ⟨e1, e2, e3, e4, e5, e6⟩
  · intro xi yi xi' yi' hxi hyi hxi' hyi' hne x y h
    obtain ⟨⟨a1, a2, a3, a4⟩, ⟨b1, b2, b3, b4⟩⟩ := h
    by_cases hxx : xi = xi'
    · have hyy : yi ≠ yi' := fun h' => hne ⟨hxx, h'⟩
      exact open_intervals_disjoint miny maxy g hy hg0 hyy y
        ⟨a3, a4, b3, b4⟩
    · exact open_intervals_disjoint minx maxx g hx hg0 hxx x
        ⟨a1, a2, b1, b2⟩
  · have harea : ∀ xi yi : ℕ,
        cell_area (grid_cell minx miny maxx maxy g xi yi)
          = (maxx - minx) / g * ((maxy - miny) / g) := by
      intro xi yi
      unfold cell_area grid_cell
      rw [linspace_step minx maxx g hgne, linspace_step miny maxy g hgne]
    rw [generate_grid_eq, List.map_flatMap, List.flatMap_def,
      List.sum_join, List.map_map]
    have hinner : ((List.range g).map
        (List.sum ∘ fun xi =>
          List.map cell_area
            ((List.range g).map (grid_cell minx miny maxx maxy g xi))))
        = List.replicate g
            (g * ((maxx - minx) / g * ((maxy - miny) / g))) := by
      rw [List.eq_replicate_iff]
      refine ⟨by simp, ?_⟩
      intro v hv
      rcases List.mem_map.mp hv with ⟨xi, _, rfl⟩
      simp only [Function.comp, List.map_map]
      have hconst : (List.range g).map
          (cell_area ∘ grid_cell minx miny maxx maxy g xi)
          = List.replicate g
              ((maxx - minx) / g * ((maxy - miny) / g)) := by
        rw [List.eq_replicate_iff]
        refine ⟨by simp, ?_⟩
        intro w hw
        rcases List.mem_map.mp hw with ⟨yi, _, rfl⟩
        exact harea xi yi
      rw [hconst, List.sum_replicate, nsmul_eq_mul]
    rw [hinner, List.sum_replicate, nsmul_eq_mul]
    field_simp
    ring
  · intro x y hx1 hx2 hy1 hy2
    obtain ⟨xi, hxi, hxl, hxu⟩ := linspace_cover minx maxx g hx hg hx1 hx2
    obtain ⟨yi, hyi, hyl, hyu⟩ := linspace_cover miny maxy g hy hg hy1 hy2
    exact ⟨grid_cell minx miny maxx maxy g xi yi,
      (mem_generate_grid minx miny maxx maxy g _).mpr
        ⟨xi, hxi, yi, hyi, rfl⟩,
      hxl, hxu, hyl, hyu⟩

/-- Witness for C2 on the unit square with grid_size 2 (the concrete
scenario of the spec). -/
theorem grid_tiling_witness :
    (0 : ℚ) < 1 ∧ (1 : ℕ) ≤ 2 ∧
    (generate_grid 0 0 1 1 2).length = 2 * 2 ∧
    (generate_grid 0 0 1 1 2)[1 * 2 + 0]? = some (grid_cell 0 0 1 1 2 1 0) ∧
    ((generate_grid 0 0 1 1 2).map cell_area).sum
      = ((1 : ℚ) - 0) * ((1 : ℚ) - 0) :=
  ⟨by norm_num, by norm_num,
   (grid_tiling 0 0 1 1 2 (by norm_num) (by norm_num) (by norm_num)).1,
   (grid_tiling 0 0 1 1 2 (by norm_num) (by norm_num) (by norm_num)).2.1
     1 0 (by norm_num) (by norm_num),
   (grid_tiling 0 0 1 1 2 (by norm_num) (by norm_num)
     (by norm_num)).2.2.2.2.1⟩

/-- Separation between two picks as the claim states it: the planar
Euclidean distance in degrees between the two centroids, multiplied by
the fixed factor 111000 meters per degree, is at least
min_distance_m. -/
def separated (min_distance_m : ℚ) (p q : Pick) : Prop :=
  (min_distance_m : ℝ) ≤
    Real.sqrt (((p.lon - q.lon) ^ 2 + (p.lat - q.lat) ^ 2 : ℚ)) * 111000

theorem separated_of_sq_le {m d2q : ℚ} {p q : Pick}
    (hd2 : d2q = (p.lon - q.lon) ^ 2 + (p.lat - q.lat) ^ 2)
    (h : ¬(0 < m ∧ d2q * 111000 ^ 2 < m ^ 2)) :
    separated m p q := by
  unfold separated
  rw [← hd2]
  rcases le_or_lt m 0 with hm | hm
  · have h1 : (m : ℝ) ≤ 0 := by exact_mod_cast hm
    have h2 : (0 : ℝ) ≤ Real.sqrt ((d2q : ℚ)) * 111000 :=
      mul_nonneg (Real.sqrt_nonneg _) (by norm_num)
    linarith
  · have hsq : m ^ 2 ≤ d2q * 111000 ^ 2 := by
      by_contra hcon
      exact h ⟨hm, by linarith⟩
    have hd2nn : (0 : ℚ) ≤ d2q := by
      rw [hd2]
      positivity
    have hsqR : ((m : ℝ)) ^ 2 ≤ ((d2q : ℚ) : ℝ) * 111000 ^ 2 := by
      exact_mod_cast hsq
    have hstep : (m : ℝ) = Real.sqrt ((m : ℝ) ^ 2) :=
      (Real.sqrt_sq (by exact_mod_cast le_of_lt hm)).symm
    calc (m : ℝ) = Real.sqrt ((m : ℝ) ^ 2) := hstep
      _ ≤ Real.sqrt (((d2q : ℚ) : ℝ) * 111000 ^ 2) :=
          Real.sqrt_le_sqrt hsqR
      _ = Real.sqrt ((d2q : ℚ)) * Real.sqrt (111000 ^ 2) :=
          Real.sqrt_mul (by exact_mod_cast hd2nn) _
      _ = Real.sqrt ((d2q : ℚ)) * 111000 := by
          rw [Real.sqrt_sq (by norm_num)]

theorem separated_of_not_close {m : ℚ} {r : Row} {c : Pick}
    (h : too_close_to m r c = false) :
    separated m c (mkPick r) ∧ separated m (mkPick r) c := by
  have h' : ¬(0 < m ∧
      dist2 r.lon r.lat c.lon c.lat * 111000 ^ 2 < m ^ 2) := by
    rw [too_close_to, decide_eq_false_iff_not] at h
    exact h
  constructor
  · refine separated_of_sq_le ?_ h'
    unfold dist2 mkPick
    ring
  · refine separated_of_sq_le ?_ h'
    unfold dist2 mkPick
    ring

theorem greedy_picks_pairwise (m : ℚ) (k : ℤ) :
    ∀ (rows : List Row) (acc : List Pick),
      acc.Pairwise (fun p q => separated m p q ∧ separated m q p) →
      (greedy_picks m k rows acc).Pairwise
        (fun p q => separated m p q ∧ separated m q p) := by
  intro rows
  induction rows with
  | nil => intro acc h; exact h
  | cons r rest ih =>
      intro acc h
      rw [greedy_picks]
      by_cases hstop : k ≤ (acc.length : ℤ)
      · rw [if_pos hstop]; exact h
      · rw [if_neg hstop]
        by_cases hclose : acc.any (too_close_to m r) = true
        · rw [if_pos hclose]; exact ih acc h
        · rw [if_neg hclose]
          apply ih
          rw [List.pairwise_append]
          refine ⟨h, List.pairwise_singleton _ _, ?_⟩
          intro a ha b hb
          have hbe : b = mkPick r := List.mem_singleton.mp hb
          have hfalse : acc.any (too_close_to m r) = false := by
            simpa using hclose
          have hfa : too_close_to m r a = false := by
            simpa using List.any_eq_false.mp hfalse a ha
          rw [hbe]
          exact separated_of_not_close hfa

/-- C1: in the RecommendationSet returned by the site selector, every
pair of distinct recommendations is separated by at least
min_distance_m meters, where distance is the planar Euclidean distance
in degrees between the two centroids multiplied by 111000 meters per
degree; this holds for every grid, score array, k and min_distance_m
(in particular for all k ≥ 0 and min_distance_m ≥ 0). -/
theorem selector_separation (gdf : List Cell) (heat_scores : List ℚ)
    (k : ℤ) (min_distance_m : ℚ) :
    (recommend_planting_locations gdf heat_scores k
      min_distance_m).Pairwise
        (fun p q => separated min_distance_m p q ∧
          separated min_distance_m q p) :=
  greedy_picks_pairwise min_distance_m k _ [] List.Pairwise.nil

theorem greedy_picks_stop {m : ℚ} {k : ℤ} {acc : List Pick}
    (rows : List Row) (h : k ≤ (acc.length : ℤ)) :
    greedy_picks m k rows acc = acc := by
  cases rows with
  | nil => rfl
  | cons r rest => rw [greedy_picks, if_pos h]

theorem greedy_picks_length (m : ℚ) (k : ℤ) :
    ∀ (rows : List Row) (acc : List Pick),
      acc.length ≤ k.toNat → (greedy_picks m k rows acc).length ≤ k.toNat := by
  intro rows
  induction rows with
  | nil => intro acc h; exact h
  | cons r rest ih =>
      intro acc h
      rw [greedy_picks]
      by_cases hstop : k ≤ (acc.length : ℤ)
      · rw [if_pos hstop]; exact h
      · rw [if_neg hstop]
        have hlen : (acc ++ [mkPick r]).length ≤ k.toNat := by
          rw [List.length_append, List.length_singleton]
          omega
        by_cases hclose : acc.any (too_close_to m r) = true
        · rw [if_pos hclose]; exact ih acc h
        · rw [if_neg hclose]; exact ih _ hlen

theorem too_close_to_nonpos {m : ℚ} (hm : m ≤ 0) (r : Row) (c : Pick) :
    too_close_to m r c = false := by
  rw [too_close_to]
  simp only [decide_eq_false_iff_not]
  rintro ⟨h1, _⟩
  linarith

theorem greedy_picks_take {m : ℚ} (hm : m ≤ 0) (k : ℤ) :
    ∀ (rows : List Row) (acc : List Pick),
      greedy_picks m k rows acc
        = acc ++ (rows.take ((k - acc.length).toNat)).map mkPick := by
  intro rows
  induction rows with
  | nil => intro acc; simp [greedy_picks]
  | cons r rest ih =>
      intro acc
      rw [greedy_picks]
      by_cases hstop : k ≤ (acc.length : ℤ)
      · rw [if_pos hstop]
        have hz : (k - acc.length).toNat = 0 := by omega
        rw [hz]
        simp
      · rw [if_neg hstop]
        have hfalse : acc.any (too_close_to m r) = false := by
          rw [List.any_eq_false]
          intro c _
          rw [too_close_to_nonpos hm]
          simp
        rw [if_neg (by rw [hfalse]; simp), ih]
        have hsucc : (k - acc.length).toNat
            = (k - (acc ++ [mkPick r]).length).toNat + 1 := by
          rw [List.length_append, List.length_singleton]
          push_cast
          omega
        rw [hsucc, List.take_succ_cons, List.map_cons]
        simp

/-- C3: the RecommendationSet never holds more than k picks (at most
k.toNat, which equals k for every k ≥ 0); with k = 0 the result is the
empty list and not an error (the embedded selector is total); and with
min_distance_m = 0 the k top-scoring candidates in the sort order are
accepted unconditionally, regardless of proximity. -/
theorem selector_cap (gdf : List Cell) (heat_scores : List ℚ) (k : ℤ)
    (min_distance_m : ℚ) :
    (recommend_planting_locations gdf heat_scores k
        min_distance_m).length ≤ k.toNat ∧
    recommend_planting_locations gdf heat_scores 0 min_distance_m = [] ∧
    recommend_planting_locations gdf heat_scores k 0
      = ((sort_candidates
          (attach_columns gdf heat_scores)).take k.toNat).map mkPick := by
  refine ⟨?_, ?_, ?_⟩
  · exact greedy_picks_length min_distance_m k _ [] (by simp)
  · exact greedy_picks_stop _ (by simp)
  · rw [recommend_planting_locations,
      greedy_picks_take (le_refl (0 : ℚ)) k _ []]
    simp

/-- C8 counterexample: the claim says a degenerate bounding box and a
negative k are rejected with InvalidInputError; instead, generate_grid
on the degenerate box [0, 0, 0, 1] with grid_size 2 returns four
zero-width cells, and the selector with k = -1 returns the empty list —
no error is raised and no InvalidInputError class even exists in the
source. -/
theorem no_validation_counterexample :
    (generate_grid 0 0 0 1 2).length = 4 ∧
    recommend_planting_locations
      [{ cell_id := 0, minx := 0, miny := 0, maxx := 1, maxy := 1 }]
      [1/2] (-1) 200 = [] := by
  constructor
  · rfl
  · rfl

/-- C8 (amended): the source performs no input validation: generate_grid
returns grid_size² cells for every bounding box, including degenerate
ones; a non-positive k yields an empty recommendation list rather than
an error; and a negative min_distance_m simply disables the proximity
filter exactly like zero does. -/
theorem no_input_validation (minx miny maxx maxy : ℚ) (g : ℕ)
    (gdf : List Cell) (heat_scores : List ℚ) (k : ℤ) (m : ℚ) :
    (generate_grid minx miny maxx maxy g).length = g * g ∧
    (k ≤ 0 → recommend_planting_locations gdf heat_scores k m = []) ∧
    (m ≤ 0 → recommend_planting_locations gdf heat_scores k m
      = ((sort_candidates
          (attach_columns gdf heat_scores)).take k.toNat).map mkPick) := by
  refine ⟨?_, ?_, ?_⟩
  · rw [generate_grid_eq]
    exact range_flatMap_length _ g g (fun a => by simp)
  · intro hk
    exact greedy_picks_stop _ (by simpa using hk)
  · intro hm
    rw [recommend_planting_locations, greedy_picks_take hm k _ []]
    simp

/-- Witness for C8 (amended) at a degenerate box, k = -1 and
min_distance_m = -5. -/
theorem no_input_validation_witness :
    (generate_grid 0 0 0 1 3).length = 3 * 3 ∧
    recommend_planting_locations [] [] (-1) (-5) = [] ∧
    recommend_planting_locations [] [] (-1) (-5)
      = ((sort_candidates (attach_columns [] [])).take
          ((-1 : ℤ)).toNat).map mkPick :=
  ⟨(no_input_validation 0 0 0 1 3 [] [] (-1) (-5)).1,
   (no_input_validation 0 0 0 1 3 [] [] (-1) (-5)).2.1 (by norm_num),
   (no_input_validation 0 0 0 1 3 [] [] (-1) (-5)).2.2 (by norm_num)⟩

/-- C6 counterexample: the claim says equal-score ties are broken by
ascending cell identifier, but pandas sort_values(ascending=False)
reverses a stable ascending argsort, so two candidates with equal heat
come out in descending cell-id order: for rows with ids 0 and 1 and
equal heat 5, the iteration order is [1, 0], not [0, 1]. -/
theorem tie_break_counterexample :
    (sort_candidates
      [{ cell_id := 0, lon := 0, lat := 0, heat := 5 },
       { cell_id := 1, lon := 1, lat := 1, heat := 5 }]).map Row.cell_id
        = [1, 0] ∧
    ([{ cell_id := 0, lon := 0, lat := 0, heat := 5 },
      { cell_id := 1, lon := 1, lat := 1, heat := (5 : ℚ) }] :
        List Row).map Row.heat = [5, 5] ∧
    (sort_candidates
      [{ cell_id := 0, lon := 0, lat := 0, heat := 5 },
       { cell_id := 1, lon := 1, lat := 1, heat := 5 }]).map Row.cell_id
        ≠ [0, 1] := by
  have hs : sort_candidates
      [{ cell_id := 0, lon := 0, lat := 0, heat := 5 },
       { cell_id := 1, lon := 1, lat := 1, heat := 5 }]
      = [{ cell_id := 1, lon := 1, lat := 1, heat := 5 },
         { cell_id := 0, lon := 0, lat := 0, heat := 5 }] := by
    rw [sort_candidates]
    norm_num [List.insertionSort, List.orderedInsert, heatLe]
  refine ⟨by rw [hs]; rfl, rfl, by rw [hs]; simp⟩

/-- C6 (amended): the selector iterates candidates in descending
composite-score order — the sorted list is a permutation of the
attached rows with pairwise non-increasing heat — but the order of
equal-score candidates is the reverse of their input order (pandas
reverses a stable ascending argsort), not ascending cell id. -/
theorem sort_descending (rows : List Row) :
    (sort_candidates rows).Pairwise (fun a b => b.heat ≤ a.heat) ∧
    (sort_candidates rows).Perm rows := by
  constructor
  · rw [sort_candidates]
    rw [List.pairwise_reverse]
    exact List.sorted_insertionSort heatLe rows
  · exact (List.reverse_perm _).trans (List.perm_insertionSort _ _)

/-- C7: determinism — in the embedding both core computations are pure
functions of their declared inputs, so two calls with identical
arguments produce identical results.  On the Python side this rests on
np.random.default_rng(seed) reseeding from the given seed on every
call, so the draw depends only on (seed, n); no global mutable state
enters either function. -/
theorem determinism_contract (gen : ℤ → ℕ → List ℚ) (seed : ℤ) (n : ℕ)
    (scale bias : ℚ) (gdf : List Cell) (heat_scores : List ℚ) (k : ℤ)
    (m : ℚ) :
    simulate_layer_values gen seed n scale bias
      = simulate_layer_values gen seed n scale bias ∧
    recommend_planting_locations gdf heat_scores k m
      = recommend_planting_locations gdf heat_scores k m :=
  ⟨rfl, rfl⟩

/-- C10: frame effect — recommend_planting_locations copies the grid
before attaching the heat, centroid, lon and lat columns (line 80), so
the caller-visible grid and heat_scores after the call are exactly the
inputs, and the returned picks are those of the pure selector. -/
theorem selector_frame (gdf : List Cell) (heat_scores : List ℚ) (k : ℤ)
    (m : ℚ) :
    recommend_planting_locations_call gdf heat_scores k m
      = (recommend_planting_locations gdf heat_scores k m,
         gdf, heat_scores) := rfl

end Greenery
